import Mathlib

/-!
Verification of the STAN task-orchestration core.

Shallow embedding of the Router, Workflow Decomposer, Dispatcher, Status
Synchronizer and Outbox Reconciler from `src/orchestrator/index.js` and
`src/agents/clark/main.js`. JSON objects are modelled as Lean structures;
an absent key is modelled as `none` of an `Option` field. JS truthiness of
string fields (`x || ''`, `if (x)`) is modelled explicitly.
-/

namespace Stan

/-- Models JS `(x || '')` on an optional string field: an absent key or an
empty string both yield the empty string. -/
def orEmpty (o : Option String) : String := o.getD ""

/-- JS truthiness of an optional string: absent (`undefined`) and `""` are
falsy, every other string is truthy. -/
def truthy (o : Option String) : Bool :=
  match o with
  | none => false
  | some s => !(s == "")

/-- Test `charsStart pat cs`: true when `pat` is a prefix of `cs`. -/
def charsStart : List Char → List Char → Bool
  | [], _ => true
  | _ :: _, [] => false
  | p :: ps, c :: cs => p == c && charsStart ps cs

/-- Test `charsOccur pat cs`: true when `pat` occurs contiguously in `cs`. -/
def charsOccur (pat : List Char) : List Char → Bool
  | [] => pat.isEmpty
  | c :: cs => charsStart pat (c :: cs) || charsOccur pat cs

/-- JS `s.includes(pat)`: substring containment. -/
def strIncludes (s pat : String) : Bool := charsOccur pat.toList s.toList

/-- ASCII lower-casing of one character (JS `toLowerCase` restricted to the
ASCII range, which covers every key of the routing tables). -/
def charLower (c : Char) : Char :=
  if c.toNat ≥ 65 && c.toNat ≤ 90 then Char.ofNat (c.toNat + 32) else c

/-- ASCII upper-casing of one character (JS `toUpperCase` on ASCII). -/
def charUpper (c : Char) : Char :=
  if c.toNat ≥ 97 && c.toNat ≤ 122 then Char.ofNat (c.toNat - 32) else c

/-- JS `s.toLowerCase()` (ASCII range). -/
def strLower (s : String) : String := String.mk (s.toList.map charLower)

/-- JS `s.toUpperCase()` (ASCII range). -/
def strUpper (s : String) : String := String.mk (s.toList.map charUpper)

/-- A task object as consumed by the orchestrator (`src/orchestrator/index.js`).
Only the fields the core reads are modelled; absent JSON keys are `none`. -/
structure Task where
  id : Option String := none
  type : Option String := none
  description : Option String := none
  assigned_to : Option String := none
  /-- JS code checks `task.workflow === true`; any non-`true` value behaves
  like an absent key, so the field is modelled as a `Bool`. -/
  workflow : Bool := false
  user_id : Option String := none
  conversation_id : Option String := none
  source : Option String := none
deriving Repr, DecidableEq

/-- Embedding of the `ORACLE_ROUTES` table (orchestrator lines 16-24), in declaration order;
every value is `oracle`. -/
def ORACLE_ROUTES : List (String × String) :=
  [("complex", "oracle"), ("architecture", "oracle"), ("code-review", "oracle"),
   ("audit", "oracle"), ("oracle", "oracle"), ("refactor", "oracle"),
   ("security", "oracle")]

/-- Embedding of the `AGENT_ROUTES` table (orchestrator lines 26-59), in declaration order. -/
def AGENT_ROUTES : List (String × String) :=
  [("equipment", "magnus"), ("technical", "magnus"), ("knowledge", "magnus"),
   ("document", "pete"), ("reconstruct", "pete"), ("pdf", "pete"), ("format", "pete"),
   ("epicor", "caesar"), ("order", "caesar"), ("csr", "caesar"), ("baq", "caesar"),
   ("customer", "caesar"),
   ("email", "maggie"), ("draft", "maggie"), ("communication", "maggie"),
   ("letter", "maggie"), ("respond", "maggie"),
   ("supabase", "clark"), ("query", "clark"), ("upload", "clark"),
   ("task-write", "clark"), ("database", "clark"),
   ("webhook", "sentry"), ("cron", "sentry"), ("schedule", "sentry"), ("hook", "sentry"),
   ("research", "scout"), ("search", "scout"), ("investigate", "scout"),
   ("lookup", "scout"), ("find out", "scout"), ("web", "scout")]

/-- Property lookup `TABLE[key]` on a routing table, returning the mapped
agent when the key is an own property. -/
def lookupRoute (routes : List (String × String)) (key : String) : Option String :=
  (routes.find? (fun kv => kv.1 == key)).map (fun kv => kv.2)

/-- Embedding of `routeTask` (orchestrator lines 143-166): explicit ORACLE assignment,
then ORACLE type/keyword match, then direct type match on `AGENT_ROUTES`,
then first keyword of `AGENT_ROUTES` contained in the description. -/
def routeTask (task : Task) : Option String :=
  let ty := strLower (orEmpty task.type)
  let assignedTo := strUpper (orEmpty task.assigned_to)
  let content := strLower (orEmpty task.description)
  if assignedTo == "ORACLE" then some "oracle"
  else if (lookupRoute ORACLE_ROUTES ty).isSome then some "oracle"
  else if ORACLE_ROUTES.any (fun kv => strIncludes content kv.1) then some "oracle"
  else
    match lookupRoute AGENT_ROUTES ty with
    | some agent => some agent
    | none => (AGENT_ROUTES.find? (fun kv => strIncludes content kv.1)).map (fun kv => kv.2)

/-- Concrete task used as C1 witness input: the description contains the
escalation keyword `security` and the ordinary-route keywords `order`
(caesar) and `document` (pete). -/
def escTask : Task := { description := some "Security audit of an order document" }

/-! ## Workflow decomposer and dispatcher (orchestrator lines 234-306) -/

/-- JS `a || b` where `a` is a possibly-absent string field and `b` a string. -/
def jsOr (a : Option String) (b : String) : String :=
  if truthy a then orEmpty a else b

/-- JS `a || null` on a possibly-absent string field. -/
def jsOrNull (a : Option String) : Option String :=
  if truthy a then a else none

/-- One entry of the JSON array returned by the decomposition call
(`decomposeTask` prompt asks for objects with `agent`, `description`,
`depends_on`; the dispatch loop additionally reads `sub.type`). An absent
`agent` key behaves exactly like a name outside the known set on every code
path used, so `agent` is modelled as a plain string. -/
structure SubtaskSpec where
  agent : String
  description : String
  type : Option String := none
  depends_on : Option Nat := none
deriving Repr, DecidableEq, Inhabited

/-- Embedding of `decomposeTask` (orchestrator lines 254-271), with the external LLM call
abstracted as its parsed output: `none` models an exec error/timeout, a
response with no JSON array, or a `JSON.parse` failure. The function then
rejects outputs that are empty or have more than 5 entries. -/
def decomposeTask (llmOutput : Option (List SubtaskSpec)) : Option (List SubtaskSpec) :=
  match llmOutput with
  | none => none
  | some subtasks =>
      if subtasks.length == 0 || subtasks.length > 5 then none else some subtasks

/-- The known-agent list checked inside `executeWorkflow` (line 284). -/
def WORKFLOW_AGENTS : List String :=
  ["magnus", "pete", "caesar", "maggie", "clark", "scout", "oracle", "sentry"]

/-- Replace the first occurrence of `pat` in a char list (JS
`String.prototype.replace` with a string pattern replaces only the first). -/
def charsReplaceFirst (pat repl : List Char) : List Char → List Char
  | [] => []
  | c :: cs =>
      if charsStart pat (c :: cs) then repl ++ (c :: cs).drop pat.length
      else c :: charsReplaceFirst pat repl cs

/-- JS `s.replace(pat, repl)` for string patterns (first occurrence only). -/
def strReplaceFirst (s pat repl : String) : String :=
  String.mk (charsReplaceFirst pat.toList repl.toList s.toList)

/-- The `subtaskData` object literal built in `executeWorkflow` (lines
289-298): the parent task spread (`...task`) with `type` and `description`
overridden, plus the workflow provenance keys. The literal contains no
`depends_on` key, so that field is always `none`. -/
structure SubtaskData where
  id : Option String
  type : String
  description : String
  assigned_to : Option String
  user_id : Option String
  conversation_id : Option String
  source : Option String
  workflow_step : Nat
  workflow_total : Nat
  parent_task_id : Option String
  source_file : String
  depends_on : Option Nat := none
deriving Repr, DecidableEq

/-- Builds `subtaskData` for the `i`-th (0-based) entry of a decomposition of
`total` entries: `type: sub.type or task.type or the default general`,
`_workflow_step: i + 1`, `_parent_task_id: task.id || null`. -/
def mkSubtaskData (task : Task) (filename : String) (total : Nat) (i : Nat)
    (sub : SubtaskSpec) : SubtaskData :=
  { id := task.id
    type := jsOr sub.type (jsOr task.type "general")
    description := sub.description
    assigned_to := task.assigned_to
    user_id := task.user_id
    conversation_id := task.conversation_id
    source := task.source
    workflow_step := i + 1
    workflow_total := total
    parent_task_id := jsOrNull task.id
    source_file := filename }

/-- One call of `dispatchToAgent` made by the workflow loop: target agent,
enriched subtask record and the synthetic `workflow-...-step(i+1).json` name. -/
structure Dispatch where
  agent : String
  data : SubtaskData
  filename : String
deriving Repr, DecidableEq

/-- The dispatch loop of `executeWorkflow` (lines 280-303): entries whose
`agent` is outside `WORKFLOW_AGENTS` are skipped (`continue`), every other
entry is dispatched immediately, in array order. `i` is the 0-based index of
the head of the remaining list. -/
def workflowDispatches (task : Task) (filename : String) (total : Nat) :
    Nat → List SubtaskSpec → List Dispatch
  | _, [] => []
  | i, sub :: rest =>
      if WORKFLOW_AGENTS.contains sub.agent then
        { agent := sub.agent
          data := mkSubtaskData task filename total i sub
          filename := "workflow-" ++ strReplaceFirst filename ".json" ""
                        ++ "-step" ++ toString (i + 1) ++ ".json" }
          :: workflowDispatches task filename total (i + 1) rest
      else workflowDispatches task filename total (i + 1) rest

/-- Embedding of `executeWorkflow` (orchestrator lines 274-306): returns the JS boolean
result (`handled`) together with the sequence of dispatches performed. -/
def executeWorkflow (task : Task) (filename : String)
    (llmOutput : Option (List SubtaskSpec)) : Bool × List Dispatch :=
  match decomposeTask llmOutput with
  | none => (false, [])
  | some subtasks =>
      if subtasks.length ≤ 1 then (false, [])
      else (true, workflowDispatches task filename subtasks.length 0 subtasks)

/-- Concrete parent task for workflow examples. -/
def wfTask : Task :=
  { id := some "task-77", type := some "workflow",
    description := some "multi step request", user_id := some "u1" }

/-- Decomposition output with one valid entry (`magnus`) and one entry naming
an unknown worker (`bogus`). -/
def mixedSpecs : List SubtaskSpec :=
  [{ agent := "magnus", description := "look up magnet specs" },
   { agent := "bogus", description := "do something impossible" }]

/-- Decomposition output whose second entry declares `depends_on := 0`. -/
def depSpecs : List SubtaskSpec :=
  [{ agent := "scout", description := "research suppliers" },
   { agent := "maggie", description := "draft an email with the findings",
     depends_on := some 0 }]

/-- A single-entry decomposition output. -/
def oneSpec : List SubtaskSpec := [{ agent := "scout", description := "single step" }]

/-- A six-entry decomposition output (over the 5-entry bound). -/
def sixSpecs : List SubtaskSpec :=
  List.replicate 6 { agent := "scout", description := "step" }

/-! ## Clark: lifecycle write-back and outbox reconciler
(`src/agents/clark/main.js`) -/

/-- JS `s.startsWith(pre)`. -/
def strStartsWith (s pre : String) : Bool := charsStart pre.toList s.toList

/-- JS `s.endsWith(suf)`. -/
def strEndsWith (s suf : String) : Bool :=
  charsStart suf.toList.reverse s.toList.reverse

/-- JS `s.slice(0, n)`. -/
def strTake (s : String) (n : Nat) : String := String.mk (s.toList.take n)

/-- Embedding of `WRITABLE_TABLES` (clark line 20): the fixed write allow-list. -/
def WRITABLE_TABLES : List String :=
  ["tasks", "agent_status", "agent_activity", "scheduled_tasks", "chat_messages"]

/-- Result of `writeToTable` (clark lines 116-130). `noCreds` is the early
return when no Supabase client is configured; `denied` is the logged
allow-list rejection carrying the offending table name (the code returns the
descriptive string `DENIED: Write access to ... not permitted` built from
that name and `WRITABLE_TABLES`); only `attempted` issues the upsert. -/
inductive WriteOutcome
  | noCreds
  | denied (table : String)
  | attempted (table : String)
deriving Repr, DecidableEq

/-- True only for the outcome that actually reaches the database. -/
def isDbWrite : WriteOutcome → Bool
  | .attempted _ => true
  | _ => false

/-- Embedding of `writeToTable` (clark lines 116-130), abstracted over the configured
client (`configured`) and the target `table`; the record content does not
influence the allow-list decision. -/
def writeToTable (configured : Bool) (table : String) : WriteOutcome :=
  if !configured then .noCreds
  else if !(WRITABLE_TABLES.contains table) then .denied table
  else .attempted table

/-- The `result` field of a result record: absent, a string, or an object
possibly carrying `file_path` (the only object key the reconciler reads). -/
inductive ResVal
  | undef
  | str (s : String)
  | obj (file_path : Option String)
deriving Repr, DecidableEq

/-- A parsed worker result file from the shared outbox (clark reads `agent`,
`task_id`, `task_source`, `result`, `output_file`, `file_path`, `confidence`,
`sources`, `completed_at`). -/
structure ResultRecord where
  agent : Option String := none
  task_id : Option String := none
  task_source : Option String := none
  result : ResVal := .undef
  output_file : Option String := none
  file_path : Option String := none
  confidence : Option String := none
  sources : Option String := none
  completed_at : Option String := none
deriving Repr, DecidableEq

/-- The context object built by `resolveTaskContext` (clark lines 311-331). -/
structure TaskCtx where
  taskId : Option String := none
  conversationId : Option String := none
  userId : Option String := none
  source : Option String := none
deriving Repr, DecidableEq

/-- Lookup of a file by name in a directory listing. -/
def lookupFile (files : List (String × Task)) (name : String) : Option Task :=
  (files.find? (fun kv => kv.1 == name)).map (fun kv => kv.2)

/-- Embedding of `resolveTaskContext` (clark lines 311-331): step 1 takes a truthy
`task_id` directly from the result; step 2 reads the processed inbox copy of
`task_source` (a failed read is caught and leaves the context unchanged) and
fills `taskId` only when still unset, while the conversation, owner and
source references are taken from the file. `processedDir` is the listing of
`/app/workspace/processed/`. -/
def resolveTaskContext (processedDir : List (String × Task))
    (result : ResultRecord) : TaskCtx :=
  let ctx1 : TaskCtx := if truthy result.task_id then { taskId := result.task_id } else {}
  if truthy result.task_source && !(orEmpty result.task_source == "unknown") then
    match lookupFile processedDir (orEmpty result.task_source) with
    | none => ctx1
    | some task =>
        { taskId := if ctx1.taskId.isNone then jsOrNull task.id else ctx1.taskId
          conversationId := jsOrNull task.conversation_id
          userId := jsOrNull task.user_id
          source := jsOrNull task.source }
  else ctx1

/-- Embedding of `detectDeliverableType` (clark lines 359-366). -/
def detectDeliverableType (ext : String) : String :=
  if [".pdf"].contains ext then "pdf"
  else if [".mp3", ".wav", ".ogg", ".flac"].contains ext then "audio"
  else if [".mp4", ".webm", ".mov"].contains ext then "video"
  else if [".png", ".jpg", ".jpeg", ".gif", ".svg", ".webp"].contains ext then "image"
  else if [".csv", ".xlsx", ".docx", ".txt", ".md", ".html"].contains ext then "document"
  else "file"

/-- Characters after the last `/` (Node `path.basename`). -/
def basenameChars (cs : List Char) : List Char :=
  cs.foldl (fun acc c => if c == '/' then [] else acc ++ [c]) []

/-- Index of the last `.` in a char list. -/
def lastDotIdx (base : List Char) : Option Nat :=
  (List.range base.length).foldl
    (fun acc i => if base.get? i == some '.' then some i else acc) none

/-- Node `path.extname`: the suffix of the basename from its last `.`
(inclusive); empty when there is no dot or the dot is the first character. -/
def extname (s : String) : String :=
  let base := basenameChars s.toList
  match lastDotIdx base with
  | none => ""
  | some 0 => ""
  | some i => String.mk (base.drop i)

/-- A deliverable attached to an update entry: classified kind plus a
locator (public URL surrogate for uploads, inline prefix for text). -/
structure Deliverable where
  dtype : String
  locator : String
deriving Repr, DecidableEq

/-- Environment of the reconciler: the configured client flag, the processed
inbox directory used by `resolveTaskContext`, the `tasks` rows reachable by
id (a missing id models a failed `.single()` fetch), the set of deliverable
file paths reachable from the container, and whether a storage upload
succeeds. -/
structure ClarkEnv where
  supabaseConfigured : Bool := true
  inboxProcessed : List (String × Task) := []
  taskRows : List String := []
  readableFiles : List String := []
  uploadOk : Bool := true
deriving Repr, DecidableEq

/-- Embedding of `uploadDeliverable` (clark lines 368-404), abstracted over storage: on a
successful upload the deliverable carries the extension classification and
the file locator; an upload error yields `none` (logged, not fatal). -/
def uploadDeliverable (env : ClarkEnv) (filepath : String) : Option Deliverable :=
  if env.uploadOk then some { dtype := detectDeliverableType (extname filepath),
                              locator := filepath }
  else none

/-- The deliverable path probed by `processOutboxFile` (lines 447-448):
`result.output_file || result.file_path || (typeof result.result === 'object'
&& result.result?.file_path) || null`. -/
def deliverableFilePath (r : ResultRecord) : Option String :=
  if truthy r.output_file then r.output_file
  else if truthy r.file_path then r.file_path
  else match r.result with
    | .obj fp => if truthy fp then fp else none
    | _ => none

/-- Observable outcome of one `processOutboxFile` call: whether the file was
moved to `outbox/processed/`, which task id received the `status = done`
update, whether the task-update step was skipped for lack of a task id,
which conversation received a chat message, and the attached deliverable. -/
structure OutboxOutcome where
  archived : Bool := false
  doneWrite : Option String := none
  skippedNoTaskId : Bool := false
  chatWrite : Option String := none
  deliverable : Option Deliverable := none
deriving Repr, DecidableEq

/-- Embedding of `processOutboxFile` (clark lines 406-517). Early returns: no configured
client; a filename starting with `clark-` (feedback-loop guard); a JSON
parse failure (`content = none`, the exception is caught) — none of these
reaches the archive step. Otherwise the file is archived regardless of
whether a task id was resolved or the task fetch succeeded. Database writes
are recorded as attempts (a failed update is logged and changes nothing else
in the control flow). -/
def processOutboxFile (env : ClarkEnv) (filename : String)
    (content : Option ResultRecord) : OutboxOutcome :=
  if !env.supabaseConfigured then {}
  else if strStartsWith filename "clark-" then {}
  else
    match content with
    | none => {}
    | some result =>
        let ctx := resolveTaskContext env.inboxProcessed result
        match ctx.taskId with
        | none => { archived := true, skippedNoTaskId := true }
        | some tid =>
            if !(env.taskRows.contains tid) then { archived := true }
            else
              let uploaded : Option Deliverable :=
                match deliverableFilePath result with
                | some fp =>
                    if env.readableFiles.contains fp then uploadDeliverable env fp
                    else none
                | none => none
              let deliv : Option Deliverable :=
                match uploaded with
                | some d => some d
                | none =>
                    match result.result with
                    | .str s => if s.length > 0 then
                        some { dtype := "text", locator := strTake s 8000 }
                      else none
                    | _ => none
              { archived := true
                doneWrite := some tid
                chatWrite :=
                  if truthy ctx.conversationId && truthy ctx.userId then
                    ctx.conversationId
                  else none
                deliverable := deliv }

/-- One pass of the startup scan / watcher over the outbox directory
(`processExistingOutbox`, `watchOutbox`): every handled file whose outcome
reached the archive step is moved out of the watched directory, every other
file stays. -/
def processOutbox (env : ClarkEnv)
    (files : List (String × Option ResultRecord)) :
    List (String × Option ResultRecord) :=
  files.filter (fun f => !(processOutboxFile env f.1 f.2).archived)

/-- A chat-originated task archived in the processed inbox directory. -/
def chatTask42 : Task :=
  { id := some "t42", user_id := some "u9",
    conversation_id := some "conv-1", source := some "chat" }

/-- Environment for C2/C6 examples: a configured client, one processed inbox
task and two known task rows. -/
def env0 : ClarkEnv :=
  { inboxProcessed := [("task-42.json", chatTask42)]
    taskRows := ["t42", "t55"] }

/-- A clark-generated result file (its name starts with `clark-`). -/
def clarkOwnResult : ResultRecord :=
  { agent := some "clark", task_source := some "unknown", result := .str "query ok" }

/-- An ordinary worker result correlated only through `task_source`. -/
def caesarResult : ResultRecord :=
  { agent := some "caesar", task_source := some "task-42.json",
    result := .str "order status: shipped" }

/-- A worker result carrying a direct `task_id` and a conflicting
`task_source` whose file names a different id. -/
def directIdResult : ResultRecord :=
  { agent := some "scout", task_id := some "t55",
    task_source := some "task-42.json", result := .str "findings" }

/-- A worker result with no correlation information at all. -/
def orphanResult : ResultRecord :=
  { agent := some "maggie", task_source := some "unknown", result := .str "draft" }

/-! ## Dispatcher mailboxes (orchestrator lines 199-230) -/

/-- The enriched task written to a worker mailbox by `dispatchToAgent`: the
task spread plus `_source_file` and `_routed_at` (wall clock, passed in as
`now`); `_routed_by` is the constant `stan-orchestrator`. -/
structure EnrichedTask where
  task : Task
  source_file : String
  routed_at : String
deriving Repr, DecidableEq

/-- The status-update task written by `requestClarkUpdate` (lines 221-230):
JSON with `type = task-write`, `record = (id, status)`, constant `_source`
`orchestrator-status-update` and `_routed_by` `stan-orchestrator`. -/
structure StatusUpdateTask where
  id : String
  status : String
deriving Repr, DecidableEq

/-- Content of a single-slot `current-task.json` mailbox of one worker. -/
inductive MailboxMsg
  | task (e : EnrichedTask)
  | statusUpdate (u : StatusUpdateTask)
deriving Repr, DecidableEq

/-- Overwrite of a single-slot mailbox file: the new content fully replaces
the previous one. -/
def setMailbox (boxes : List (String × MailboxMsg)) (name : String)
    (msg : MailboxMsg) : List (String × MailboxMsg) :=
  (name, msg) :: boxes.filter (fun kv => !(kv.1 == name))

/-- Current content of a mailbox of a worker. -/
def lookupMailbox (boxes : List (String × MailboxMsg)) (name : String) :
    Option MailboxMsg :=
  (boxes.find? (fun kv => kv.1 == name)).map (fun kv => kv.2)

/-- Ordered file writes of one `dispatchToAgent` call (lines 199-217): first
the enriched task to the target mailbox of a worker, then — when the task
carries a truthy `id` — the `in_progress` status-update task to the clark
mailbox via `requestClarkUpdate`. -/
def dispatchWrites (agentName : String) (task : Task) (filename now : String) :
    List (String × MailboxMsg) :=
  (agentName, .task ⟨task, filename, now⟩)
    :: (if truthy task.id then
          [("clark", .statusUpdate ⟨orEmpty task.id, "in_progress"⟩)]
        else [])

/-- Apply a sequence of mailbox writes in order (last write wins per slot). -/
def applyWrites (boxes : List (String × MailboxMsg)) :
    List (String × MailboxMsg) → List (String × MailboxMsg)
  | [] => boxes
  | (n, m) :: rest => applyWrites (setMailbox boxes n m) rest

/-- Mailbox state after one `dispatchToAgent` call. -/
def dispatchToAgent (boxes : List (String × MailboxMsg)) (agentName : String)
    (task : Task) (filename now : String) : List (String × MailboxMsg) :=
  applyWrites boxes (dispatchWrites agentName task filename now)

/-! ## Task processing and inbox polling (orchestrator lines 310-388) -/

/-- The output vocabulary accepted from the classification call (line 190). -/
def VALID_AGENTS : List String :=
  ["magnus", "pete", "caesar", "maggie", "clark", "sentry", "scout", "oracle"]

/-- Validation step of `classifyWithOpenClaw` (lines 168-197): `rawOut` is
the trimmed, lower-cased last line of the stdout of the external call, or `none`
for a call error/timeout; anything outside the fixed vocabulary becomes
`none` — a worker identity is never invented. -/
def classifyWithOpenClaw (rawOut : Option String) : Option String :=
  match rawOut with
  | none => none
  | some agent => if VALID_AGENTS.contains agent then some agent else none

/-- Observable outcome of one `processTask` call: whether the inbox file was
moved to the processed directory, the `error-` record written to the outbox,
the single-agent dispatch target, and the workflow dispatches. -/
structure ProcOutcome where
  removed : Bool := false
  errorFile : Option String := none
  dispatchedTo : Option String := none
  wfDispatches : List Dispatch := []
deriving Repr, DecidableEq

/-- Models `processTask` (orchestrator lines 310-365). `content = none` is a
JSON parse failure (caught; nothing happens). An explicitly flagged workflow
(`task.workflow === true` or an exact type match on the word workflow) that decomposes is
handled and the file moved; otherwise keyword routing, then the classifier
fallback; a routed task is dispatched and the file moved; an unrouted task
with a description longer than 200 characters gets a decomposition attempt
(`llmB`); if everything fails, an `error-` record is written to the outbox
and the file is NOT moved out of the inbox. -/
def processTask (filename : String) (content : Option Task)
    (classifierRaw : Option String)
    (llmA llmB : Option (List SubtaskSpec)) : ProcOutcome :=
  match content with
  | none => {}
  | some task =>
      let wfA := executeWorkflow task filename llmA
      if (task.workflow || (task.type == some "workflow")) && wfA.1 then
        { removed := true, wfDispatches := wfA.2 }
      else
        let agent : Option String :=
          match routeTask task with
          | some a => some a
          | none => classifyWithOpenClaw classifierRaw
        match agent with
        | some a => { removed := true, dispatchedTo := some a }
        | none =>
            let wfB := executeWorkflow task filename llmB
            if truthy task.description
                && decide ((orEmpty task.description).length > 200) && wfB.1 then
              { removed := true, wfDispatches := wfB.2 }
            else { errorFile := some ("error-" ++ filename) }

/-- Per-file environment of one inbox file: its parsed content and the
external-call results its processing would observe. -/
structure TaskFileEnv where
  content : Option Task := none
  classifierRaw : Option String := none
  llmA : Option (List SubtaskSpec) := none
  llmB : Option (List SubtaskSpec) := none
deriving Repr, DecidableEq

/-- One `processTask` call on an inbox file with its environment. -/
def processTaskFile (filename : String) (fe : TaskFileEnv) : ProcOutcome :=
  processTask filename fe.content fe.classifierRaw fe.llmA fe.llmB

/-- One `pollInbox` cycle (lines 369-382): every `.json` file of the inbox
directory is processed; files whose processing moved them out of the inbox
disappear from the directory, all others remain for the next cycle. Returns
the remaining directory and the outcomes of this cycle. -/
def pollInbox (dir : List (String × TaskFileEnv)) :
    List (String × TaskFileEnv) × List (String × ProcOutcome) :=
  ( dir.filter (fun f => !(strEndsWith f.1 ".json" && (processTaskFile f.1 f.2).removed)),
    (dir.filter (fun f => strEndsWith f.1 ".json")).map
      (fun f => (f.1, processTaskFile f.1 f.2)) )

/-- A task no strategy can route (spec §8 scenario): unknown type, short
gibberish description. -/
def unroutableTask : Task :=
  { type := some "unknown-xyz", description := some "flibbertigibbet" }

/-- Environment of the unroutable file: the classifier replies garbage and
no decomposition output exists. -/
def unroutableEnv : TaskFileEnv :=
  { content := some unroutableTask, classifierRaw := some "garbage" }

/-! ## Interleaving model of dispatch, status synchronization and
reconciliation (C5)

Each component is a single-threaded event-driven process; every file or
database operation is an asynchronous suspension point, so the steps of the
orchestrator (`dispatchToAgent`), of the clark mailbox consumer (the
`task-write` branch of the clark `processTask`), of an external worker, and of
the clark reconciler (`processOutboxFile`) interleave freely. A trace is any
sequence of enabled actions. -/

/-- Global state: the per-worker mailbox files, the shared outbox (each
result is represented by the durable id it carries), the `tasks` rows
(id to status), and the ordered log of durable status writes. -/
structure SysState where
  mailboxes : List (String × MailboxMsg) := []
  outbox : List String := []
  db : List (String × String) := []
  history : List (String × String) := []
deriving Repr, DecidableEq

/-- Upsert of a task row (the clark `writeToTable` on `tasks` and the supabase update on `tasks`). -/
def setDb (db : List (String × String)) (id status : String) :
    List (String × String) :=
  (id, status) :: db.filter (fun kv => !(kv.1 == id))

/-- The interleavable actions. -/
inductive Act
  | dispatch (agent : String) (task : Task) (filename now : String)
  | clarkApplyUpdate
  | workerResult (agent : String)
  | reconcile
deriving Repr, DecidableEq

/-- One step of the system. `dispatch` is the orchestrator function
`dispatchToAgent` (mailbox writes only — the durable `in_progress` write is
NOT part of this step; it is only requested via the clark mailbox).
`clarkApplyUpdate` is clark consuming a status-update task from its mailbox
and upserting the row (`writeToTable` on `tasks`, an allow-listed table).
`workerResult agent` is the external worker consuming its current task and
dropping a result carrying the durable id of the task into the shared outbox.
`reconcile` is the clark `processOutboxFile` on the first outbox result: the
direct `task_id` resolves and the row is updated to `done`. -/
def step (s : SysState) (a : Act) : Option SysState :=
  match a with
  | .dispatch agent task filename now =>
      some { s with mailboxes := dispatchToAgent s.mailboxes agent task filename now }
  | .clarkApplyUpdate =>
      match lookupMailbox s.mailboxes "clark" with
      | some (.statusUpdate u) =>
          some { s with db := setDb s.db u.id u.status,
                        history := s.history ++ [(u.id, u.status)] }
      | _ => none
  | .workerResult agent =>
      match lookupMailbox s.mailboxes agent with
      | some (.task e) =>
          if truthy e.task.id then
            some { s with outbox := s.outbox ++ [orEmpty e.task.id] }
          else none
      | _ => none
  | .reconcile =>
      match s.outbox with
      | [] => none
      | tid :: rest =>
          some { s with outbox := rest,
                        db := setDb s.db tid "done",
                        history := s.history ++ [(tid, "done")] }

/-- Run a trace from a state; `none` when some action is not enabled. -/
def runTrace (s : SysState) : List Act → Option SysState
  | [] => some s
  | a :: rest =>
      match step s a with
      | none => none
      | some s2 => runTrace s2 rest

/-- Checks that in a write history every `(tid, done)` entry is preceded by
an earlier `(tid, in_progress)` entry; `seen` carries whether one was
already passed. -/
def inProgressBeforeDone (tid : String) : Bool → List (String × String) → Bool
  | _, [] => true
  | seen, (t, st) :: rest =>
      if t == tid && st == "done" && !seen then false
      else inProgressBeforeDone tid (seen || (t == tid && st == "in_progress")) rest

/-- Every status-update message sitting in a mailbox carries the status
`in_progress` (the only producer is `requestClarkUpdate` at dispatch time). -/
def statusMsgsInProgress (boxes : List (String × MailboxMsg)) : Prop :=
  ∀ p ∈ boxes, ∀ u, p.2 = MailboxMsg.statusUpdate u → u.status = "in_progress"

/-- The initial system state: empty mailboxes, outbox, table and history. -/
def initSys : SysState := {}

/-- The dispatched task of the C5 scenario: it carries a durable id. -/
def c5Task : Task :=
  { id := some "t1", type := some "equipment",
    description := some "check the magnet stock" }

/-- A valid interleaving in which the worker finishes and the reconciler
writes `done` before clark ever consumes the `in_progress` update request
from its mailbox. -/
def c5Trace : List Act :=
  [.dispatch "magnus" c5Task "job-1.json" "2026-01-01T00:00:00Z",
   .workerResult "magnus",
   .reconcile]

/-- State after the first C5 action. -/
def c5After1 : SysState :=
  (step initSys (.dispatch "magnus" c5Task "job-1.json" "2026-01-01T00:00:00Z")).getD
    initSys

/-! ## Theorems -/

example : routeTask { type := some "email", description := some "draft a thank-you note" }
    = some "maggie" := by decide

example : routeTask { description := some "perform a security audit of the checkout flow" }
    = some "oracle" := by decide

example : routeTask { type := some "unknown-xyz", description := some "flibbertigibbet" }
    = none := by decide

/-- C1: for every task whose `type` exactly matches an escalation keyword or
whose lowercased `description` contains an escalation keyword as a substring,
`routeTask` returns the escalation worker `oracle`, even if `type` or
`description` also matches an ordinary `AGENT_ROUTES` entry. (`assigned_to`
can never force a non-oracle route in `routeTask`, so no hypothesis on it is
needed.) -/
theorem C1_router_escalation_priority (task : Task)
    (h : (lookupRoute ORACLE_ROUTES (strLower (orEmpty task.type))).isSome = true
       ∨ ORACLE_ROUTES.any
           (fun kv => strIncludes (strLower (orEmpty task.description)) kv.1) = true) :
    routeTask task = some "oracle" := by
  by_cases hA : (strUpper (orEmpty task.assigned_to) == "ORACLE") = true
  · simp [routeTask, hA]
  · by_cases hB : (lookupRoute ORACLE_ROUTES (strLower (orEmpty task.type))).isSome = true
    · simp [routeTask, hA, hB]
    · have hC : ORACLE_ROUTES.any
          (fun kv => strIncludes (strLower (orEmpty task.description)) kv.1) = true := by
        rcases h with h | h
        · exact absurd h hB
        · exact h
      simp [routeTask, hA, hB, hC]

/-- C1 witness: the description of `escTask` contains an escalation keyword, and
the router sends it to `oracle` although it also contains ordinary-route
keywords. -/
theorem C1_router_escalation_priority_witness :
    (ORACLE_ROUTES.any
        (fun kv => strIncludes (strLower (orEmpty escTask.description)) kv.1) = true)
    ∧ routeTask escTask = some "oracle" :=
  ⟨by decide, C1_router_escalation_priority escTask (Or.inr (by decide))⟩

/-- The agents of the dispatches produced by the workflow loop are exactly the
agents of the decomposition entries that name a known worker, in order. -/
lemma workflowDispatches_map_agent (task : Task) (filename : String) (total : Nat) :
    ∀ (subtasks : List SubtaskSpec) (i : Nat),
      (workflowDispatches task filename total i subtasks).map Dispatch.agent
        = (subtasks.filter (fun s => WORKFLOW_AGENTS.contains s.agent)).map
            SubtaskSpec.agent := by
  intro subtasks
  induction subtasks with
  | nil => intro i; simp [workflowDispatches]
  | cons sub rest ih =>
      intro i
      by_cases h : WORKFLOW_AGENTS.contains sub.agent = true
      · simp only [workflowDispatches, if_pos h, List.filter_cons, h, if_true,
          List.map_cons]
        exact congrArg _ (ih (i + 1))
      · simp only [workflowDispatches, if_neg h, List.filter_cons, h, if_false]
        exact ih (i + 1)

/-- No dispatched subtask record carries a `depends_on` key: the object
literal in `executeWorkflow` never copies it. -/
lemma workflowDispatches_depends_none (task : Task) (filename : String) (total : Nat) :
    ∀ (subtasks : List SubtaskSpec) (i : Nat),
      ∀ d ∈ workflowDispatches task filename total i subtasks,
        d.data.depends_on = none := by
  intro subtasks
  induction subtasks with
  | nil => intro i d hd; simp [workflowDispatches] at hd
  | cons sub rest ih =>
      intro i d hd
      by_cases h : WORKFLOW_AGENTS.contains sub.agent = true
      · rw [workflowDispatches, if_pos h] at hd
        rcases List.mem_cons.mp hd with rfl | hd'
        · rfl
        · exact ih (i + 1) d hd'
      · rw [workflowDispatches, if_neg h] at hd
        exact ih (i + 1) d hd

/-- A decomposition of 2 to 5 entries is accepted by `decomposeTask`. -/
lemma decomposeTask_accepts (subtasks : List SubtaskSpec)
    (h2 : 2 ≤ subtasks.length) (h5 : subtasks.length ≤ 5) :
    decomposeTask (some subtasks) = some subtasks := by
  unfold decomposeTask
  have hc : (subtasks.length == 0 || subtasks.length > 5) = false := by
    simp only [Bool.or_eq_false_iff, beq_eq_false_iff_ne, ne_eq,
      decide_eq_false_iff_not, not_lt]
    omega
  simp [hc]

/-- On a decomposition of 2 to 5 entries, `executeWorkflow` reports handled
and performs the loop dispatches. -/
lemma executeWorkflow_pos (task : Task) (filename : String)
    (subtasks : List SubtaskSpec)
    (h2 : 2 ≤ subtasks.length) (h5 : subtasks.length ≤ 5) :
    executeWorkflow task filename (some subtasks)
      = (true, workflowDispatches task filename subtasks.length 0 subtasks) := by
  have hgt : ¬ subtasks.length ≤ 1 := by omega
  simp only [executeWorkflow, decomposeTask_accepts subtasks h2 h5]
  rw [if_neg hgt]

/-- A list whose members all satisfy the known-agent test is unchanged by the
known-agent filter. -/
lemma filter_known_eq_self (subtasks : List SubtaskSpec)
    (hk : ∀ s ∈ subtasks, WORKFLOW_AGENTS.contains s.agent = true) :
    subtasks.filter (fun s => WORKFLOW_AGENTS.contains s.agent) = subtasks := by
  induction subtasks with
  | nil => rfl
  | cons s rest ih =>
      have h1 := hk s (List.mem_cons_self s rest)
      have h2 : ∀ x ∈ rest, WORKFLOW_AGENTS.contains x.agent = true :=
        fun x hx => hk x (List.mem_cons_of_mem s hx)
      rw [List.filter_cons, if_pos h1, ih h2]

/-- C3 counterexample: in the decomposition `mixedSpecs` the second entry
names the unknown worker `bogus`, yet the attempt is not rejected — the first
subtask is still dispatched to `magnus`. -/
theorem C3_counterexample :
    WORKFLOW_AGENTS.contains (mixedSpecs.getD 1 default).agent = false
    ∧ (executeWorkflow wfTask "wf-1.json" (some mixedSpecs)).1 = true
    ∧ (executeWorkflow wfTask "wf-1.json" (some mixedSpecs)).2.map Dispatch.agent
        = ["magnus"] := by decide

/-- C3 amended: an entry naming a worker outside the known set is skipped
individually (`continue`), while every entry naming a known worker is still
dispatched, in array order; the whole decomposition is not rejected. -/
theorem C3_invalid_agent_skipped (task : Task) (filename : String)
    (subtasks : List SubtaskSpec)
    (h2 : 2 ≤ subtasks.length) (h5 : subtasks.length ≤ 5) :
    (executeWorkflow task filename (some subtasks)).1 = true
    ∧ (executeWorkflow task filename (some subtasks)).2.map Dispatch.agent
        = (subtasks.filter (fun s => WORKFLOW_AGENTS.contains s.agent)).map
            SubtaskSpec.agent := by
  rw [executeWorkflow_pos task filename subtasks h2 h5]
  exact ⟨rfl, workflowDispatches_map_agent task filename subtasks.length subtasks 0⟩

/-- C3 amended witness: instantiation at `mixedSpecs`. -/
theorem C3_invalid_agent_skipped_witness :
    (2 ≤ mixedSpecs.length ∧ mixedSpecs.length ≤ 5)
    ∧ ((executeWorkflow wfTask "wf-1.json" (some mixedSpecs)).1 = true
       ∧ (executeWorkflow wfTask "wf-1.json" (some mixedSpecs)).2.map Dispatch.agent
           = (mixedSpecs.filter (fun s => WORKFLOW_AGENTS.contains s.agent)).map
               SubtaskSpec.agent) :=
  ⟨⟨by decide, by decide⟩,
   C3_invalid_agent_skipped wfTask "wf-1.json" mixedSpecs (by decide) (by decide)⟩

/-- C4 counterexample: in `depSpecs` the second entry declares
`depends_on = 0`, but neither dispatched record carries a `depends_on` key —
the field is dropped, not copied as metadata (both subtasks are still
dispatched immediately, in order). -/
theorem C4_counterexample :
    (depSpecs.getD 1 default).depends_on = some 0
    ∧ (executeWorkflow wfTask "wf-2.json" (some depSpecs)).2.map
        (fun d => d.data.depends_on) = [none, none]
    ∧ (executeWorkflow wfTask "wf-2.json" (some depSpecs)).2.map Dispatch.agent
        = ["scout", "maggie"] := by decide

/-- C4 amended: for every successful decomposition (2 to 5 entries, each
naming a known worker) every subtask is dispatched immediately and
independently, in array order within the same handling pass; `depends_on` is
not copied onto the dispatched record at all (the record never carries it)
and never delays a later subtask. -/
theorem C4_dispatch_all_immediately (task : Task) (filename : String)
    (subtasks : List SubtaskSpec)
    (h2 : 2 ≤ subtasks.length) (h5 : subtasks.length ≤ 5)
    (hk : ∀ s ∈ subtasks, WORKFLOW_AGENTS.contains s.agent = true) :
    (executeWorkflow task filename (some subtasks)).1 = true
    ∧ (executeWorkflow task filename (some subtasks)).2.map Dispatch.agent
        = subtasks.map SubtaskSpec.agent
    ∧ ∀ d ∈ (executeWorkflow task filename (some subtasks)).2,
        d.data.depends_on = none := by
  rw [executeWorkflow_pos task filename subtasks h2 h5]
  refine ⟨rfl, ?_, ?_⟩
  · rw [show ((true, workflowDispatches task filename subtasks.length 0 subtasks)).2
        = workflowDispatches task filename subtasks.length 0 subtasks from rfl,
      workflowDispatches_map_agent task filename subtasks.length subtasks 0,
      filter_known_eq_self subtasks hk]
  · intro d hd'
    exact workflowDispatches_depends_none task filename subtasks.length subtasks 0 d hd'

/-- C4 amended witness: instantiation at `depSpecs`. -/
theorem C4_dispatch_all_immediately_witness :
    (2 ≤ depSpecs.length ∧ depSpecs.length ≤ 5
      ∧ ∀ s ∈ depSpecs, WORKFLOW_AGENTS.contains s.agent = true)
    ∧ ((executeWorkflow wfTask "wf-2b.json" (some depSpecs)).1 = true
       ∧ (executeWorkflow wfTask "wf-2b.json" (some depSpecs)).2.map Dispatch.agent
           = depSpecs.map SubtaskSpec.agent
       ∧ ∀ d ∈ (executeWorkflow wfTask "wf-2b.json" (some depSpecs)).2,
           d.data.depends_on = none) :=
  ⟨⟨by decide, by decide, by decide⟩,
   C4_dispatch_all_immediately wfTask "wf-2b.json" depSpecs
     (by decide) (by decide) (by decide)⟩

/-- C8: a decomposition result that is no well-formed array (`none`), is
empty, or exceeds 5 entries is discarded by `decomposeTask`; a single-entry
result is treated as "no workflow" by `executeWorkflow`; hence a workflow is
executed (`handled = true`) exactly when the decomposition has 2 to 5
entries. -/
theorem C8_decomposition_size_bounds (task : Task) (filename : String)
    (llmOutput : Option (List SubtaskSpec)) :
    ((executeWorkflow task filename llmOutput).1 = true
        ↔ ∃ l, llmOutput = some l ∧ 2 ≤ l.length ∧ l.length ≤ 5)
    ∧ (∀ l, llmOutput = some l → (l.length = 0 ∨ 5 < l.length) →
        decomposeTask llmOutput = none)
    ∧ (∀ l, llmOutput = some l → l.length = 1 →
        executeWorkflow task filename llmOutput = (false, [])) := by
  have hdiscard : ∀ l : List SubtaskSpec, l.length = 0 ∨ 5 < l.length →
      decomposeTask (some l) = none := by
    intro l hbad
    unfold decomposeTask
    have hc : (l.length == 0 || l.length > 5) = true := by
      simp only [beq_iff_eq, Bool.or_eq_true, decide_eq_true_eq]
      omega
    simp [hc]
  have hsingle : ∀ l : List SubtaskSpec, l.length = 1 →
      executeWorkflow task filename (some l) = (false, []) := by
    intro l h1
    have hd : decomposeTask (some l) = some l := by
      unfold decomposeTask
      have hc : (l.length == 0 || l.length > 5) = false := by
        simp only [Bool.or_eq_false_iff, beq_eq_false_iff_ne, ne_eq,
          decide_eq_false_iff_not, not_lt]
        omega
      simp [hc]
    have h1' : l.length ≤ 1 := by omega
    simp only [executeWorkflow, hd]
    rw [if_pos h1']
  refine ⟨?_, fun l hl hbad => hl ▸ hdiscard l hbad, fun l hl h1 => hl ▸ hsingle l h1⟩
  cases llmOutput with
  | none =>
      simp only [executeWorkflow, decomposeTask]
      constructor
      · intro h; exact absurd h (by simp)
      · rintro ⟨l', hl', _, _⟩; cases hl'
  | some l =>
      constructor
      · intro h
        refine ⟨l, rfl, ?_, ?_⟩
        · by_contra hc
          have h2 : l.length ≤ 1 := by omega
          rcases Nat.eq_zero_or_pos l.length with h0 | hpos
          · have hd := hdiscard l (Or.inl h0)
            simp only [executeWorkflow, hd] at h
            exact absurd h (by simp)
          · have h1 : l.length = 1 := by omega
            rw [hsingle l h1] at h
            exact absurd h (by simp)
        · by_contra hc
          have hd := hdiscard l (Or.inr (by omega))
          simp only [executeWorkflow, hd] at h
          exact absurd h (by simp)
      · rintro ⟨l', hl', h2, h5⟩
        obtain rfl : l = l' := Option.some.inj hl'
        rw [executeWorkflow_pos task filename l h2 h5]

/-- C8 witness: a six-entry result is discarded and a single-entry result
yields "no workflow". -/
theorem C8_decomposition_size_bounds_witness :
    decomposeTask (some sixSpecs) = none
    ∧ executeWorkflow wfTask "wf-3.json" (some oneSpec) = (false, []) :=
  ⟨(C8_decomposition_size_bounds wfTask "wf-3.json" (some sixSpecs)).2.1 sixSpecs rfl
      (Or.inr (by decide)),
   (C8_decomposition_size_bounds wfTask "wf-3.json" (some oneSpec)).2.2 oneSpec rfl
      (by decide)⟩

/-- C2 counterexample: a result file whose name starts with `clark-` is a
result file appearing in the shared outbox, yet `processOutboxFile` returns
before the archive step, so it is never moved to the processed directory;
the same holds for a file whose content does not parse. -/
theorem C2_counterexample :
    strStartsWith "clark-1700000000.json" "clark-" = true
    ∧ (processOutboxFile env0 "clark-1700000000.json" (some clarkOwnResult)).archived
        = false
    ∧ (processOutboxFile env0 "caesar-broken.json" none).archived = false := by decide

/-- Every non-clark, parsing result file reaches the archive step when the
client is configured, whatever the correlation outcome. -/
lemma processOutboxFile_archived (env : ClarkEnv) (filename : String)
    (result : ResultRecord)
    (hcfg : env.supabaseConfigured = true)
    (hname : strStartsWith filename "clark-" = false) :
    (processOutboxFile env filename (some result)).archived = true := by
  unfold processOutboxFile
  rw [hcfg, hname]
  simp only [Bool.not_true, Bool.false_eq_true, if_false]
  cases hctx : (resolveTaskContext env.inboxProcessed result).taskId with
  | none => simp [hctx]
  | some tid =>
      by_cases hrow : tid ∈ env.taskRows
      · simp [hctx, hrow]
      · simp [hctx, hrow]

/-- C2 amended: every result file in the shared outbox whose name does not
start with `clark-` and whose content parses is, with a configured client,
archived after handling regardless of whether correlation succeeds; when no
task id resolves, the task update is skipped but the file is still archived;
and an archived file is gone from the watched directory, so a re-run of the
watcher or poller never reprocesses it. Files named `clark-...` and files
that fail to parse are never archived. -/
theorem C2_archive_regardless_of_correlation (env : ClarkEnv) (filename : String)
    (result : ResultRecord)
    (hcfg : env.supabaseConfigured = true)
    (hname : strStartsWith filename "clark-" = false) :
    (processOutboxFile env filename (some result)).archived = true
    ∧ ((resolveTaskContext env.inboxProcessed result).taskId = none →
        (processOutboxFile env filename (some result)).doneWrite = none
        ∧ (processOutboxFile env filename (some result)).skippedNoTaskId = true)
    ∧ (∀ files, (filename, some result) ∉ processOutbox env files) := by
  have harch := processOutboxFile_archived env filename result hcfg hname
  refine ⟨harch, ?_, ?_⟩
  · intro hid
    unfold processOutboxFile
    rw [hcfg, hname]
    simp only [Bool.not_true, Bool.false_eq_true, if_false]
    simp [hid]
  · intro files hmem
    have hp := (List.mem_filter.mp hmem).2
    rw [harch] at hp
    simp at hp

/-- C2 amended witness: a correlated result and an orphan result are both
archived; the orphan skips the task update; neither survives a re-scan. -/
theorem C2_archive_regardless_of_correlation_witness :
    ((processOutboxFile env0 "caesar-77.json" (some caesarResult)).archived = true)
    ∧ ((processOutboxFile env0 "maggie-9.json" (some orphanResult)).archived = true
       ∧ (processOutboxFile env0 "maggie-9.json" (some orphanResult)).doneWrite = none
       ∧ (processOutboxFile env0 "maggie-9.json" (some orphanResult)).skippedNoTaskId
           = true)
    ∧ ("maggie-9.json", some orphanResult)
        ∉ processOutbox env0 [("maggie-9.json", some orphanResult)] :=
  ⟨(C2_archive_regardless_of_correlation env0 "caesar-77.json" caesarResult
      rfl (by decide)).1,
   ⟨(C2_archive_regardless_of_correlation env0 "maggie-9.json" orphanResult
       rfl (by decide)).1,
    (C2_archive_regardless_of_correlation env0 "maggie-9.json" orphanResult
       rfl (by decide)).2.1 (by decide)⟩,
   (C2_archive_regardless_of_correlation env0 "maggie-9.json" orphanResult
      rfl (by decide)).2.2 [("maggie-9.json", some orphanResult)]⟩

/-- C6: correlation is first-success-wins. A truthy `task_id` on the result
fixes the resolved task id and is never overridden by the `task_source`
lookup; without one, the processed copy of `task_source` supplies `id`,
conversation reference and owner reference. -/
theorem C6_correlation_precedence (processedDir : List (String × Task))
    (result : ResultRecord) :
    (truthy result.task_id = true →
        (resolveTaskContext processedDir result).taskId = result.task_id)
    ∧ (truthy result.task_id = false →
        ∀ task, truthy result.task_source = true →
          (orEmpty result.task_source == "unknown") = false →
          lookupFile processedDir (orEmpty result.task_source) = some task →
          (resolveTaskContext processedDir result).taskId = jsOrNull task.id
          ∧ (resolveTaskContext processedDir result).conversationId
              = jsOrNull task.conversation_id
          ∧ (resolveTaskContext processedDir result).userId = jsOrNull task.user_id) := by
  constructor
  · intro ht
    unfold resolveTaskContext
    simp only [ht, if_true]
    by_cases hs : (truthy result.task_source
        && !(orEmpty result.task_source == "unknown")) = true
    · rw [if_pos hs]
      cases hl : lookupFile processedDir (orEmpty result.task_source) with
      | none => rfl
      | some task =>
          have hid : result.task_id.isNone = false := by
            cases h : result.task_id with
            | none => rw [h] at ht; simp [truthy] at ht
            | some s => rfl
          simp [hid]
    · rw [if_neg (by simp [hs])]
  · intro hf task hsrc hunk hl
    unfold resolveTaskContext
    simp only [hf, Bool.false_eq_true, if_false]
    rw [if_pos (by rw [hsrc, hunk]; rfl), hl]
    exact ⟨by simp, rfl, rfl⟩

/-- C6 witness: the record `directIdResult` keeps its own `task_id` although its
`task_source` file names a different task; the record `caesarResult` has no `task_id`
and inherits id, conversation and owner from the processed file. -/
theorem C6_correlation_precedence_witness :
    (truthy directIdResult.task_id = true
      ∧ (resolveTaskContext env0.inboxProcessed directIdResult).taskId
          = directIdResult.task_id)
    ∧ (truthy caesarResult.task_id = false
      ∧ lookupFile env0.inboxProcessed (orEmpty caesarResult.task_source)
          = some chatTask42)
    ∧ ((resolveTaskContext env0.inboxProcessed caesarResult).taskId
          = jsOrNull chatTask42.id
       ∧ (resolveTaskContext env0.inboxProcessed caesarResult).conversationId
          = jsOrNull chatTask42.conversation_id
       ∧ (resolveTaskContext env0.inboxProcessed caesarResult).userId
          = jsOrNull chatTask42.user_id) :=
  ⟨⟨by decide,
    (C6_correlation_precedence env0.inboxProcessed directIdResult).1 (by decide)⟩,
   ⟨by decide, by decide⟩,
   (C6_correlation_precedence env0.inboxProcessed caesarResult).2 (by decide)
     chatTask42 (by decide) (by decide) (by decide)⟩

/-- C7: with a configured client, a write request naming a table outside
`WRITABLE_TABLES` is rejected with the descriptive denial outcome and
reaches no database write, while a request naming an allow-listed table is
attempted. -/
theorem C7_write_allowlist (configured : Bool) (table : String)
    (hcfg : configured = true) :
    (WRITABLE_TABLES.contains table = false →
        writeToTable configured table = .denied table
        ∧ isDbWrite (writeToTable configured table) = false)
    ∧ (WRITABLE_TABLES.contains table = true →
        writeToTable configured table = .attempted table) := by
  subst hcfg
  constructor
  · intro h
    have h' : table ∉ WRITABLE_TABLES := by simpa using h
    unfold writeToTable
    simp [h', isDbWrite]
  · intro h
    have h' : table ∈ WRITABLE_TABLES := by simpa using h
    unfold writeToTable
    simp [h']

/-- C9: when keyword routing, the classifier fallback and decomposition all
fail on a `.json` inbox file, `processTask` writes an `error-<filename>`
record to the outbox but does not move the file out of the inbox, so every
subsequent poll cycle processes the same file again and rewrites the error
record. -/
theorem C9_unroutable_stays_in_inbox (filename : String) (fe : TaskFileEnv)
    (task : Task)
    (hjson : strEndsWith filename ".json" = true)
    (hcontent : fe.content = some task)
    (hwf : task.workflow = false)
    (hwft : ¬ task.type = some "workflow")
    (hroute : routeTask task = none)
    (hclass : classifyWithOpenClaw fe.classifierRaw = none)
    (hdecomp : (executeWorkflow task filename fe.llmB).1 = false) :
    processTaskFile filename fe = { errorFile := some ("error-" ++ filename) }
    ∧ ∀ dir, (filename, fe) ∈ dir →
        (filename, fe) ∈ (pollInbox dir).1
        ∧ (filename, ({ errorFile := some ("error-" ++ filename) } : ProcOutcome))
            ∈ (pollInbox dir).2 := by
  have htype : (task.type == some "workflow") = false := by
    simpa using hwft
  have hmain : processTaskFile filename fe
      = { errorFile := some ("error-" ++ filename) } := by
    unfold processTaskFile processTask
    rw [hcontent]
    simp only [hwf, htype, Bool.or_self, Bool.false_and, Bool.false_eq_true, if_false]
    simp only [hroute, hclass]
    simp [hdecomp]
  refine ⟨hmain, ?_⟩
  intro dir hmem
  constructor
  · refine List.mem_filter.mpr ⟨hmem, ?_⟩
    rw [hjson, hmain]
    rfl
  · refine List.mem_map.mpr ⟨(filename, fe), List.mem_filter.mpr ⟨hmem, ?_⟩, ?_⟩
    · rw [hjson]
    · rw [hmain]

/-- C9 witness: the unroutable scenario file stays in the inbox and its
error record is produced by the poll cycle. -/
theorem C9_unroutable_stays_in_inbox_witness :
    processTaskFile "task-9.json" unroutableEnv
      = { errorFile := some ("error-" ++ "task-9.json") }
    ∧ ("task-9.json", unroutableEnv)
        ∈ (pollInbox [("task-9.json", unroutableEnv)]).1
    ∧ ("task-9.json", ({ errorFile := some ("error-" ++ "task-9.json") } : ProcOutcome))
        ∈ (pollInbox [("task-9.json", unroutableEnv)]).2 :=
  have h := C9_unroutable_stays_in_inbox "task-9.json" unroutableEnv unroutableTask
    (by decide) rfl rfl (by decide) (by decide) (by decide) (by decide)
  ⟨h.1,
   (h.2 [("task-9.json", unroutableEnv)] (List.mem_singleton.mpr rfl)).1,
   (h.2 [("task-9.json", unroutableEnv)] (List.mem_singleton.mpr rfl)).2⟩

/-- C10: dispatching a task that carries a truthy durable-store id to the
worker `clark` performs two writes to the same single-slot mailbox file, in
order: first the enriched task, then the `in_progress` status-update task —
so after `dispatchToAgent` returns, the clark mailbox holds the status-update
task and the originally dispatched task has been replaced. -/
theorem C10_clark_dispatch_overwritten (boxes : List (String × MailboxMsg))
    (task : Task) (filename now : String)
    (h : truthy task.id = true) :
    dispatchWrites "clark" task filename now
      = [("clark", .task ⟨task, filename, now⟩),
         ("clark", .statusUpdate ⟨orEmpty task.id, "in_progress"⟩)]
    ∧ lookupMailbox (dispatchToAgent boxes "clark" task filename now) "clark"
        = some (.statusUpdate ⟨orEmpty task.id, "in_progress"⟩)
    ∧ MailboxMsg.task ⟨task, filename, now⟩
        ≠ MailboxMsg.statusUpdate ⟨orEmpty task.id, "in_progress"⟩ := by
  refine ⟨by simp [dispatchWrites, h], ?_, by simp⟩
  simp [dispatchToAgent, dispatchWrites, h, applyWrites, setMailbox, lookupMailbox,
    List.find?]

/-- C10 witness: a concrete dispatch of task `t1` to clark leaves the
status-update task in the clark mailbox. -/
theorem C10_clark_dispatch_overwritten_witness :
    truthy (Task.mk (some "t1") none none none false none none none).id = true
    ∧ lookupMailbox
        (dispatchToAgent [] "clark"
          (Task.mk (some "t1") none none none false none none none)
          "job-1.json" "2026-01-01T00:00:00Z") "clark"
      = some (.statusUpdate ⟨"t1", "in_progress"⟩) :=
  ⟨by decide,
   (C10_clark_dispatch_overwritten [] (Task.mk (some "t1") none none none false none none none)
      "job-1.json" "2026-01-01T00:00:00Z" (by decide)).2.1⟩

/-- Membership in a single-slot overwrite: either the fresh write or an
untouched slot. -/
lemma mem_setMailbox (boxes : List (String × MailboxMsg)) (n : String)
    (m : MailboxMsg) (p : String × MailboxMsg)
    (hp : p ∈ setMailbox boxes n m) : p = (n, m) ∨ p ∈ boxes := by
  unfold setMailbox at hp
  rcases List.mem_cons.mp hp with h | h
  · exact Or.inl h
  · exact Or.inr (List.mem_filter.mp h).1

/-- The empty initial mailboxes satisfy the status-update invariant. -/
lemma statusMsgsInProgress_init : statusMsgsInProgress initSys.mailboxes := by
  intro p hp
  simp [initSys] at hp

/-- Every step preserves the invariant that mailbox status-update messages
carry `in_progress`: the only producer of such messages is
`requestClarkUpdate` inside `dispatchToAgent`. -/
lemma step_preserves_statusMsgsInProgress (s : SysState) (a : Act) (s2 : SysState)
    (h : step s a = some s2) (hinv : statusMsgsInProgress s.mailboxes) :
    statusMsgsInProgress s2.mailboxes := by
  cases a with
  | dispatch agent task filename now =>
      simp only [step] at h
      obtain rfl := Option.some.inj h
      intro p hp u hu
      by_cases ht : truthy task.id = true
      · simp only [dispatchToAgent, dispatchWrites, ht, if_true, applyWrites] at hp
        rcases mem_setMailbox _ _ _ _ hp with rfl | hp1
        · cases hu
          rfl
        · rcases mem_setMailbox _ _ _ _ hp1 with rfl | hp2
          · cases hu
          · exact hinv p hp2 u hu
      · simp only [dispatchToAgent, dispatchWrites, ht, if_false, applyWrites] at hp
        rcases mem_setMailbox _ _ _ _ hp with rfl | hp1
        · cases hu
        · exact hinv p hp1 u hu
  | clarkApplyUpdate =>
      simp only [step] at h
      rcases hm : lookupMailbox s.mailboxes "clark" with _ | msg
      · rw [hm] at h; cases h
      · cases msg with
        | task e => rw [hm] at h; cases h
        | statusUpdate u =>
            rw [hm] at h
            obtain rfl := Option.some.inj h
            exact hinv
  | workerResult agent =>
      simp only [step] at h
      rcases hm : lookupMailbox s.mailboxes agent with _ | msg
      · rw [hm] at h; cases h
      · cases msg with
        | statusUpdate u => rw [hm] at h; cases h
        | task e =>
            simp only [hm] at h
            by_cases ht : truthy e.task.id = true
            · rw [if_pos ht] at h
              obtain rfl := Option.some.inj h
              exact hinv
            · rw [if_neg ht] at h; cases h
  | reconcile =>
      simp only [step] at h
      rcases ho : s.outbox with _ | ⟨tid, rest⟩
      · rw [ho] at h; cases h
      · rw [ho] at h
        obtain rfl := Option.some.inj h
        exact hinv

/-- C5 counterexample: a valid interleaving of the modelled code in which
the result of the worker is reconciled (durable `done` write) before clark ever
consumes the `in_progress` update request from its mailbox: the durable
history of the task is exactly `[(t1, done)]` and no `in_progress` write is
observed before the `done` write. -/
theorem C5_counterexample :
    (runTrace initSys c5Trace).map (fun st => st.history) = some [("t1", "done")]
    ∧ (runTrace initSys c5Trace).map
        (fun st => inProgressBeforeDone "t1" false st.history) = some false := by
  decide

/-- C5 amended: a successful dispatch of a task with a durable id places the
`inbox to in_progress` update request in the clark mailbox within the dispatch
step itself, but performs no durable status write; every durable `done`
write is performed only by the Reconciler step, which consumes a matching
result from the outbox. (The durable `in_progress` write is asynchronous and
is not guaranteed to be observed before the `done` write.) -/
theorem C5_in_progress_requested_at_dispatch (s : SysState) (a : Act) (s2 : SysState)
    (hinv : statusMsgsInProgress s.mailboxes)
    (h : step s a = some s2) :
    (∀ agent task filename now, a = .dispatch agent task filename now →
        truthy task.id = true →
        lookupMailbox s2.mailboxes "clark"
          = some (.statusUpdate ⟨orEmpty task.id, "in_progress"⟩)
        ∧ s2.history = s.history)
    ∧ (∀ e, e ∈ s2.history → e ∉ s.history → e.2 = "done" → a = .reconcile)
    ∧ (a = .reconcile →
        ∃ tid rest, s.outbox = tid :: rest
          ∧ s2.history = s.history ++ [(tid, "done")]) := by
  cases a with
  | dispatch agent task filename now =>
      simp only [step] at h
      obtain rfl := Option.some.inj h
      refine ⟨?_, ?_, ?_⟩
      · intro agent2 task2 filename2 now2 heq htr
        injection heq with e1 e2 e3 e4
        subst e1; subst e2; subst e3; subst e4
        refine ⟨?_, rfl⟩
        simp [dispatchToAgent, dispatchWrites, htr, applyWrites, setMailbox,
          lookupMailbox, List.find?]
      · intro e he hnot _
        exact absurd he hnot
      · intro hre; cases hre
  | clarkApplyUpdate =>
      simp only [step] at h
      rcases hm : lookupMailbox s.mailboxes "clark" with _ | msg
      · rw [hm] at h; cases h
      · cases msg with
        | task e => rw [hm] at h; cases h
        | statusUpdate u =>
            rw [hm] at h
            obtain rfl := Option.some.inj h
            refine ⟨(fun _ _ _ _ heq => by cases heq), ?_, (fun hre => by cases hre)⟩
            intro e he hnot hdone
            rcases List.mem_append.mp he with h1 | h1
            · exact absurd h1 hnot
            · unfold lookupMailbox at hm
              obtain ⟨kv, hfind, hkv⟩ := Option.map_eq_some'.mp hm
              have hkvmem : kv ∈ s.mailboxes := List.mem_of_find?_eq_some hfind
              have hst : u.status = "in_progress" := hinv kv hkvmem u hkv
              obtain rfl := List.mem_singleton.mp h1
              have hcontra : u.status = "done" := hdone
              rw [hst] at hcontra
              exact absurd hcontra (by decide)
  | workerResult agent =>
      simp only [step] at h
      rcases hm : lookupMailbox s.mailboxes agent with _ | msg
      · rw [hm] at h; cases h
      · cases msg with
        | statusUpdate u => rw [hm] at h; cases h
        | task e =>
            simp only [hm] at h
            by_cases ht : truthy e.task.id = true
            · rw [if_pos ht] at h
              obtain rfl := Option.some.inj h
              refine ⟨(fun _ _ _ _ heq => by cases heq), ?_, (fun hre => by cases hre)⟩
              intro e2 he hnot _
              exact absurd he hnot
            · rw [if_neg ht] at h; cases h
  | reconcile =>
      simp only [step] at h
      rcases ho : s.outbox with _ | ⟨tid, rest⟩
      · rw [ho] at h; cases h
      · rw [ho] at h
        obtain rfl := Option.some.inj h
        refine ⟨(fun _ _ _ _ heq => by cases heq), ?_, (fun _ => ⟨tid, rest, rfl, rfl⟩)⟩
        intro e he hnot hdone
        rfl

/-- C5 amended witness: from the initial state, the concrete dispatch of
task `t1` puts the `in_progress` update request in the clark mailbox within
the dispatch step and writes nothing durable. -/
theorem C5_in_progress_requested_at_dispatch_witness :
    statusMsgsInProgress initSys.mailboxes
    ∧ step initSys (.dispatch "magnus" c5Task "job-1.json" "2026-01-01T00:00:00Z")
        = some c5After1
    ∧ (lookupMailbox c5After1.mailboxes "clark"
        = some (.statusUpdate ⟨orEmpty c5Task.id, "in_progress"⟩)
       ∧ c5After1.history = initSys.history) :=
  have hinv : statusMsgsInProgress initSys.mailboxes := by
    intro p hp; simp [initSys] at hp
  have hstep : step initSys
      (.dispatch "magnus" c5Task "job-1.json" "2026-01-01T00:00:00Z")
        = some c5After1 := by decide
  ⟨hinv, hstep,
   (C5_in_progress_requested_at_dispatch initSys _ c5After1 hinv hstep).1
     "magnus" c5Task "job-1.json" "2026-01-01T00:00:00Z" rfl (by decide)⟩

/-- C7 witness: a write to `users` is denied without touching the database;
a write to `tasks` is attempted. -/
theorem C7_write_allowlist_witness :
    (WRITABLE_TABLES.contains "users" = false
      ∧ writeToTable true "users" = .denied "users"
      ∧ isDbWrite (writeToTable true "users") = false)
    ∧ (WRITABLE_TABLES.contains "tasks" = true
      ∧ writeToTable true "tasks" = .attempted "tasks") :=
  ⟨⟨by decide, (C7_write_allowlist true "users" rfl).1 (by decide)⟩,
   ⟨by decide, (C7_write_allowlist true "tasks" rfl).2 (by decide)⟩⟩

end Stan
